import Mathlib

/-!
# Verification of the `violet` envelope-encryption core

Shallow embedding of the `violet` repository's envelope-encryption engine
(`violet-core/src/crypto/*`, `violet-core/src/models/encryption_envelope.rs`)
and of the daemon request handler and connection loop
(`violet-daemon/src/handler.rs`, `protocol.rs`, `server.rs`).

Bytes are modelled as `Nat` (values below 256 where it matters, stated as
hypotheses mirroring the `u8` typing).  The external AEAD primitives from the
`aes-gcm` / `aes-gcm-siv` crates are abstracted as an `Aead` structure; the
repository's own code around them (size checks, tag splitting, base64 packing,
envelope layout, dispatch) is translated faithfully.  Randomness (`thread_rng`
draws) is passed in explicitly.
-/

namespace Violet

/-! ## Base64 (standard alphabet, canonical padding), modelling the
`base64` crate's `STANDARD` engine used throughout the repository. -/

/-- Encode a 6-bit value as a standard-alphabet base64 character. -/
def b64EncChar (n : Nat) : Char :=
  if n < 26 then Char.ofNat (65 + n)
  else if n < 52 then Char.ofNat (97 + (n - 26))
  else if n < 62 then Char.ofNat (48 + (n - 52))
  else if n = 62 then '+' else '/'

/-- Decode a standard-alphabet base64 character to its 6-bit value. -/
def b64DecChar (c : Char) : Option Nat :=
  if 'A' ≤ c ∧ c ≤ 'Z' then some (c.toNat - 65)
  else if 'a' ≤ c ∧ c ≤ 'z' then some (c.toNat - 71)
  else if '0' ≤ c ∧ c ≤ '9' then some (c.toNat + 4)
  else if c = '+' then some 62
  else if c = '/' then some 63
  else none

/-- Base64-encode a byte list, three bytes to four characters, with
canonical `=` padding on the final partial group. -/
def b64encodeList : List Nat → List Char
  | [] => []
  | [b1] => [b64EncChar (b1 / 4), b64EncChar (b1 % 4 * 16), '=', '=']
  | [b1, b2] =>
      [b64EncChar (b1 / 4), b64EncChar (b1 % 4 * 16 + b2 / 16),
       b64EncChar (b2 % 16 * 4), '=']
  | b1 :: b2 :: b3 :: rest =>
      b64EncChar (b1 / 4) :: b64EncChar (b1 % 4 * 16 + b2 / 16) ::
      b64EncChar (b2 % 16 * 4 + b3 / 64) :: b64EncChar (b3 % 64) ::
      b64encodeList rest

/-- Base64-decode a character list; `none` on non-multiple-of-4 length,
characters outside the alphabet, misplaced padding, or non-canonical
trailing bits (the `STANDARD` engine rejects all of these). -/
def b64decodeList : List Char → Option (List Nat)
  | [] => some []
  | c1 :: c2 :: c3 :: c4 :: rest =>
    (b64DecChar c1).bind fun s1 =>
    (b64DecChar c2).bind fun s2 =>
    if c3 = '=' then
      if c4 = '=' ∧ rest = [] ∧ s2 % 16 = 0 then
        some [s1 * 4 + s2 / 16]
      else none
    else
      (b64DecChar c3).bind fun s3 =>
      if c4 = '=' then
        if rest = [] ∧ s3 % 4 = 0 then
          some [s1 * 4 + s2 / 16, s2 % 16 * 16 + s3 / 4]
        else none
      else
        (b64DecChar c4).bind fun s4 =>
        (b64decodeList rest).bind fun bs =>
        some ((s1 * 4 + s2 / 16) :: (s2 % 16 * 16 + s3 / 4) ::
              (s3 % 4 * 64 + s4) :: bs)
  | _ => none

/-- `BASE64.encode` producing a `String` field value. -/
def b64encode (l : List Nat) : String := String.mk (b64encodeList l)

/-- `BASE64.decode` on a `String` field value. -/
def b64decode (s : String) : Option (List Nat) := b64decodeList s.data

theorem b64DecChar_encChar : ∀ n, n < 64 → b64DecChar (b64EncChar n) = some n := by
  decide

theorem b64EncChar_ne_pad : ∀ n, n < 64 → b64EncChar n ≠ '=' := by
  decide

theorem b64_decode_encode (l : List Nat) (h : ∀ b ∈ l, b < 256) :
    b64decodeList (b64encodeList l) = some l := by
  induction l using b64encodeList.induct with
  | case1 => rw [b64encodeList, b64decodeList]
  | case2 b1 =>
      have hb1 : b1 < 256 := h b1 (by simp)
      rw [b64encodeList, b64decodeList]
      rw [b64DecChar_encChar (b1 / 4) (by omega),
          b64DecChar_encChar (b1 % 4 * 16) (by omega)]
      simp only [Option.some_bind]
      rw [if_pos trivial,
          if_pos ⟨trivial, trivial, (by omega : b1 % 4 * 16 % 16 = 0)⟩]
      have e1 : b1 / 4 * 4 + b1 % 4 * 16 / 16 = b1 := by omega
      rw [e1]
  | case3 b1 b2 =>
      have hb1 : b1 < 256 := h b1 (by simp)
      have hb2 : b2 < 256 := h b2 (by simp)
      rw [b64encodeList, b64decodeList]
      rw [b64DecChar_encChar (b1 / 4) (by omega),
          b64DecChar_encChar (b1 % 4 * 16 + b2 / 16) (by omega)]
      simp only [Option.some_bind]
      rw [if_neg (b64EncChar_ne_pad (b2 % 16 * 4) (by omega))]
      rw [b64DecChar_encChar (b2 % 16 * 4) (by omega)]
      simp only [Option.some_bind]
      rw [if_pos trivial, if_pos ⟨trivial, (by omega : b2 % 16 * 4 % 4 = 0)⟩]
      have e1 : b1 / 4 * 4 + (b1 % 4 * 16 + b2 / 16) / 16 = b1 := by omega
      have e2 : (b1 % 4 * 16 + b2 / 16) % 16 * 16 + b2 % 16 * 4 / 4 = b2 := by omega
      rw [e1, e2]
  | case4 b1 b2 b3 rest ih =>
      have hb1 : b1 < 256 := h b1 (by simp)
      have hb2 : b2 < 256 := h b2 (by simp)
      have hb3 : b3 < 256 := h b3 (by simp)
      have hrest : ∀ b ∈ rest, b < 256 := fun b hb => h b (by simp [hb])
      rw [b64encodeList, b64decodeList]
      rw [b64DecChar_encChar (b1 / 4) (by omega),
          b64DecChar_encChar (b1 % 4 * 16 + b2 / 16) (by omega)]
      simp only [Option.some_bind]
      rw [if_neg (b64EncChar_ne_pad (b2 % 16 * 4 + b3 / 64) (by omega))]
      rw [b64DecChar_encChar (b2 % 16 * 4 + b3 / 64) (by omega)]
      simp only [Option.some_bind]
      rw [if_neg (b64EncChar_ne_pad (b3 % 64) (by omega))]
      rw [b64DecChar_encChar (b3 % 64) (by omega)]
      simp only [Option.some_bind]
      rw [ih hrest]
      simp only [Option.some_bind]
      have e1 : b1 / 4 * 4 + (b1 % 4 * 16 + b2 / 16) / 16 = b1 := by omega
      have e2 : (b1 % 4 * 16 + b2 / 16) % 16 * 16 + (b2 % 16 * 4 + b3 / 64) / 4 = b2 := by
        omega
      have e3 : (b2 % 16 * 4 + b3 / 64) % 4 * 64 + b3 % 64 = b3 := by omega
      rw [e1, e2, e3]

theorem b64decode_b64encode (l : List Nat) (h : ∀ b ∈ l, b < 256) :
    b64decode (b64encode l) = some l :=
  b64_decode_encode l h

theorem b64decode_empty : b64decode "" = some [] := by decide

/-! ## Error type (`violet-core/src/error.rs`) -/

/-- `VioletError` from `violet-core/src/error.rs` (the variants the crypto
core and daemon can produce). -/
inductive VioletError
  | InvalidKeySize (n : Nat)
  | InvalidNonceSize (n : Nat)
  | InvalidTagSize (n : Nat)
  | EncryptionFailed (s : String)
  | DecryptionFailed (s : String)
  | CryptoError (s : String)
  | Base64Error
  | InvalidAlgorithm (s : String)
  deriving DecidableEq, Repr

/-- `BASE64.decode(..)?` : a base64 decode error converts into
`VioletError::Base64Error` via the `#[from]` impl. -/
def b64decodeE (s : String) : Except VioletError (List Nat) :=
  match b64decode s with
  | some l => Except.ok l
  | none => Except.error VioletError.Base64Error

/-! ## Algorithm and size constants (`violet-core/src/crypto/types.rs`) -/

inductive Algorithm
  | Aes256Gcm
  | Aes256GcmSiv
  deriving DecidableEq, Repr

/-- `Algorithm::as_str`. -/
def Algorithm.as_str : Algorithm → String
  | .Aes256Gcm => "AES-256-GCM"
  | .Aes256GcmSiv => "AES-256-GCM-SIV"

/-- `Algorithm::from_str`. -/
def Algorithm.from_str (s : String) : Except VioletError Algorithm :=
  if s = "AES-256-GCM" then Except.ok Algorithm.Aes256Gcm
  else if s = "AES-256-GCM-SIV" then Except.ok Algorithm.Aes256GcmSiv
  else Except.error (VioletError.InvalidAlgorithm s)

/-- `impl Default for Algorithm`. -/
def Algorithm.default : Algorithm := Algorithm.Aes256Gcm

def DEK_SIZE : Nat := 32
def GCM_NONCE_SIZE : Nat := 12
def GCM_SIV_NONCE_SIZE : Nat := 12
def GCM_TAG_SIZE : Nat := 16

/-! ## Abstract AEAD primitive

The `aes-gcm` / `aes-gcm-siv` crates' ciphers are external to the
repository.  They are modelled as an abstract primitive: `enc key nonce
plaintext` returns the ciphertext with the 16-byte tag appended (as the
crates' `encrypt` does), `dec key nonce ct` returns the plaintext or
`none` on authentication failure.  Theorems state the properties of the
primitive they rely on as explicit hypotheses. -/

structure Aead where
  enc : List Nat → List Nat → List Nat → List Nat
  dec : List Nat → List Nat → List Nat → Option (List Nat)

/-! ## AEAD adapters (`aes_gcm.rs`, `aes_gcm_siv.rs`)

The random nonce drawn by `rand::thread_rng().fill_bytes` is passed in
explicitly as `nonceBytes`. -/

/-- `aes_gcm::encrypt` — returns `(ciphertext, nonce, tag)` after splitting
the tag off the primitive's output. -/
def aesGcmEncrypt (G : Aead) (plaintext key nonceBytes : List Nat) :
    Except VioletError (List Nat × List Nat × List Nat) :=
  if key.length ≠ 32 then Except.error (VioletError.InvalidKeySize key.length)
  else
    let ciphertext_with_tag := G.enc key nonceBytes plaintext
    let tag_start := ciphertext_with_tag.length - GCM_TAG_SIZE
    Except.ok (ciphertext_with_tag.take tag_start, nonceBytes,
               ciphertext_with_tag.drop tag_start)

/-- `aes_gcm::decrypt` — size checks, then reconstructs `ciphertext ++ tag`
and calls the primitive. -/
def aesGcmDecrypt (G : Aead) (ciphertext key nonce tag : List Nat) :
    Except VioletError (List Nat) :=
  if key.length ≠ 32 then Except.error (VioletError.InvalidKeySize key.length)
  else if nonce.length ≠ GCM_NONCE_SIZE then
    Except.error (VioletError.InvalidNonceSize nonce.length)
  else if tag.length ≠ GCM_TAG_SIZE then
    Except.error (VioletError.InvalidTagSize tag.length)
  else
    match G.dec key nonce (ciphertext ++ tag) with
    | some plaintext => Except.ok plaintext
    | none => Except.error (VioletError.DecryptionFailed "aead::Error")

/-- `aes_gcm_siv::encrypt`. -/
def aesGcmSivEncrypt (S : Aead) (plaintext key nonceBytes : List Nat) :
    Except VioletError (List Nat × List Nat × List Nat) :=
  if key.length ≠ 32 then Except.error (VioletError.InvalidKeySize key.length)
  else
    let ciphertext_with_tag := S.enc key nonceBytes plaintext
    let tag_start := ciphertext_with_tag.length - GCM_TAG_SIZE
    Except.ok (ciphertext_with_tag.take tag_start, nonceBytes,
               ciphertext_with_tag.drop tag_start)

/-- `aes_gcm_siv::decrypt`. -/
def aesGcmSivDecrypt (S : Aead) (ciphertext key nonce tag : List Nat) :
    Except VioletError (List Nat) :=
  if key.length ≠ 32 then Except.error (VioletError.InvalidKeySize key.length)
  else if nonce.length ≠ GCM_SIV_NONCE_SIZE then
    Except.error (VioletError.InvalidNonceSize nonce.length)
  else if tag.length ≠ GCM_TAG_SIZE then
    Except.error (VioletError.InvalidTagSize tag.length)
  else
    match S.dec key nonce (ciphertext ++ tag) with
    | some plaintext => Except.ok plaintext
    | none => Except.error (VioletError.DecryptionFailed "aead::Error")

/-! ## Envelope model (`models/encryption_envelope.rs`) -/

/-- `EncryptionEnvelope`: all fields are strings, the four binary-bearing
ones base64-encoded.  `auth_tag` carries `#[serde(default)]`, so JSON input
lacking `authTag` deserializes with `auth_tag = ""`. -/
structure EncryptionEnvelope where
  key_id : String
  encrypted_data : String
  encrypted_key : String
  iv : String
  algorithm : String
  auth_tag : String
  deriving DecidableEq, Repr

/-! ## Envelope encryptor (`crypto/envelope.rs`)

`EnvelopeEncryptor` holds only the configured data-layer algorithm
(`selfAlg` below).  The random draws of `encrypt` (the 32-byte DEK and the
two 12-byte nonces) are passed in explicitly. -/

/-- `EnvelopeEncryptor::encrypt` (the `?` operator written as explicit
matches). -/
def encrypt (G S : Aead) (selfAlg : Algorithm) (plaintext kek : List Nat)
    (key_id : String) (dek dataNonce dekNonce : List Nat) :
    Except VioletError EncryptionEnvelope :=
  if kek.length ≠ DEK_SIZE then
    Except.error (VioletError.InvalidKeySize kek.length)
  else
    match (match selfAlg with
           | Algorithm.Aes256Gcm => aesGcmEncrypt G plaintext dek dataNonce
           | Algorithm.Aes256GcmSiv =>
               aesGcmSivEncrypt S plaintext dek dataNonce) with
    | Except.error e => Except.error e
    | Except.ok (ciphertext, data_iv, data_tag) =>
      match aesGcmEncrypt G dek kek dekNonce with
      | Except.error e => Except.error e
      | Except.ok (encrypted_dek, dek_iv, dek_tag) =>
        let dek_package := dek_iv ++ encrypted_dek ++ dek_tag
        Except.ok
          { key_id := key_id
            encrypted_data := b64encode ciphertext
            encrypted_key := b64encode dek_package
            iv := b64encode data_iv
            algorithm := selfAlg.as_str
            auth_tag := b64encode data_tag }

/-- `EnvelopeEncryptor::decrypt` (the `?` operator written as explicit
matches).  Note `selfAlg` (the `self.algorithm` field) is never read: the
data-layer dispatch uses the algorithm string parsed from the envelope. -/
def decrypt (G S : Aead) (selfAlg : Algorithm) (envelope : EncryptionEnvelope)
    (kek : List Nat) : Except VioletError (List Nat) :=
  if kek.length ≠ DEK_SIZE then
    Except.error (VioletError.InvalidKeySize kek.length)
  else
    match b64decodeE envelope.encrypted_key with
    | Except.error e => Except.error e
    | Except.ok encrypted_dek_with_overhead =>
      match b64decodeE envelope.encrypted_data with
      | Except.error e => Except.error e
      | Except.ok ciphertext =>
        match b64decodeE envelope.iv with
        | Except.error e => Except.error e
        | Except.ok iv =>
          match b64decodeE envelope.auth_tag with
          | Except.error e => Except.error e
          | Except.ok auth_tag =>
            match Algorithm.from_str envelope.algorithm with
            | Except.error e => Except.error e
            | Except.ok algorithm =>
              if encrypted_dek_with_overhead.length < 12 + 16 then
                Except.error
                  (VioletError.CryptoError "Invalid encrypted DEK length")
              else
                let dek_nonce := encrypted_dek_with_overhead.take 12
                let dek_data_end := encrypted_dek_with_overhead.length - 16
                let dek_ciphertext :=
                  (encrypted_dek_with_overhead.drop 12).take (dek_data_end - 12)
                let dek_tag := encrypted_dek_with_overhead.drop dek_data_end
                match aesGcmDecrypt G dek_ciphertext kek dek_nonce dek_tag with
                | Except.error e => Except.error e
                | Except.ok dek =>
                  if dek.length ≠ DEK_SIZE then
                    Except.error (VioletError.CryptoError "Invalid DEK size")
                  else
                    match algorithm with
                    | Algorithm.Aes256Gcm =>
                        aesGcmDecrypt G ciphertext dek iv auth_tag
                    | Algorithm.Aes256GcmSiv =>
                        aesGcmSivDecrypt S ciphertext dek iv auth_tag

/-! ## Characterization of `encrypt` -/

/-- The data-layer AEAD output selected by the configured algorithm. -/
def dataLayerEnc (G S : Aead) (a : Algorithm) (dek dn pt : List Nat) :
    List Nat :=
  match a with
  | Algorithm.Aes256Gcm => G.enc dek dn pt
  | Algorithm.Aes256GcmSiv => S.enc dek dn pt

/-- The envelope `encrypt` produces on given inputs and random draws. -/
def envOf (G S : Aead) (a : Algorithm) (pt kek : List Nat) (kid : String)
    (dek dn kn : List Nat) : EncryptionEnvelope :=
  let E := dataLayerEnc G S a dek dn pt
  let W := G.enc kek kn dek
  { key_id := kid
    encrypted_data := b64encode (E.take (E.length - GCM_TAG_SIZE))
    encrypted_key := b64encode (kn ++ W.take (W.length - GCM_TAG_SIZE) ++
                                W.drop (W.length - GCM_TAG_SIZE))
    iv := b64encode dn
    algorithm := a.as_str
    auth_tag := b64encode (E.drop (E.length - GCM_TAG_SIZE)) }

theorem encrypt_ok (G S : Aead) (a : Algorithm) (pt kek : List Nat)
    (kid : String) (dek dn kn : List Nat)
    (hkek : kek.length = 32) (hdek : dek.length = 32) :
    encrypt G S a pt kek kid dek dn kn =
      Except.ok (envOf G S a pt kek kid dek dn kn) := by
  cases a <;>
    simp [encrypt, aesGcmEncrypt, aesGcmSivEncrypt, envOf, dataLayerEnc,
          hkek, hdek, DEK_SIZE]

theorem b64decodeE_encode (l : List Nat) (h : ∀ b ∈ l, b < 256) :
    b64decodeE (b64encode l) = Except.ok l := by
  simp [b64decodeE, b64decode_b64encode l h]

theorem from_str_as_str (a : Algorithm) :
    Algorithm.from_str a.as_str = Except.ok a := by
  cases a <;> rfl

/-- Unfolding of `decrypt` once the five field parses are known. -/
theorem decrypt_eq_body (G S : Aead) (a' : Algorithm)
    (env : EncryptionEnvelope) (kek P ct ivb tg : List Nat) (a : Algorithm)
    (hkek : kek.length = 32)
    (hK : b64decodeE env.encrypted_key = Except.ok P)
    (hD : b64decodeE env.encrypted_data = Except.ok ct)
    (hI : b64decodeE env.iv = Except.ok ivb)
    (hT : b64decodeE env.auth_tag = Except.ok tg)
    (hA : Algorithm.from_str env.algorithm = Except.ok a) :
    decrypt G S a' env kek =
      if P.length < 28 then
        Except.error (VioletError.CryptoError "Invalid encrypted DEK length")
      else
        match aesGcmDecrypt G ((P.drop 12).take (P.length - 16 - 12)) kek
            (P.take 12) (P.drop (P.length - 16)) with
        | Except.error e => Except.error e
        | Except.ok dek =>
          if dek.length ≠ 32 then
            Except.error (VioletError.CryptoError "Invalid DEK size")
          else
            match a with
            | Algorithm.Aes256Gcm => aesGcmDecrypt G ct dek ivb tg
            | Algorithm.Aes256GcmSiv => aesGcmSivDecrypt S ct dek ivb tg := by
  simp only [decrypt, hK, hD, hI, hT, hA, hkek, DEK_SIZE]
  norm_num

/-- Unfolding of `aes_gcm::decrypt` when the size preconditions hold. -/
theorem aesGcmDecrypt_valid (G : Aead) (c k n t : List Nat)
    (hk : k.length = 32) (hn : n.length = 12) (ht : t.length = 16) :
    aesGcmDecrypt G c k n t =
      match G.dec k n (c ++ t) with
      | some p => Except.ok p
      | none => Except.error (VioletError.DecryptionFailed "aead::Error") := by
  simp [aesGcmDecrypt, hk, hn, ht, GCM_NONCE_SIZE, GCM_TAG_SIZE]

/-- Unfolding of `aes_gcm_siv::decrypt` when the size preconditions hold. -/
theorem aesGcmSivDecrypt_valid (S : Aead) (c k n t : List Nat)
    (hk : k.length = 32) (hn : n.length = 12) (ht : t.length = 16) :
    aesGcmSivDecrypt S c k n t =
      match S.dec k n (c ++ t) with
      | some p => Except.ok p
      | none => Except.error (VioletError.DecryptionFailed "aead::Error") := by
  simp [aesGcmSivDecrypt, hk, hn, ht, GCM_SIV_NONCE_SIZE, GCM_TAG_SIZE]

/-- The four base64 fields of the produced envelope decode back to the
byte buffers `encrypt` packed into them. -/
theorem envOf_fields (G S : Aead) (a : Algorithm) (pt kek : List Nat)
    (kid : String) (dek dn kn : List Nat)
    (hdnB : ∀ b ∈ dn, b < 256) (hknB : ∀ b ∈ kn, b < 256)
    (hGB : ∀ b ∈ dataLayerEnc G S a dek dn pt, b < 256)
    (hWB : ∀ b ∈ G.enc kek kn dek, b < 256) :
    b64decodeE (envOf G S a pt kek kid dek dn kn).encrypted_key =
      Except.ok (kn ++ G.enc kek kn dek) ∧
    b64decodeE (envOf G S a pt kek kid dek dn kn).encrypted_data =
      Except.ok ((dataLayerEnc G S a dek dn pt).take
        ((dataLayerEnc G S a dek dn pt).length - 16)) ∧
    b64decodeE (envOf G S a pt kek kid dek dn kn).iv = Except.ok dn ∧
    b64decodeE (envOf G S a pt kek kid dek dn kn).auth_tag =
      Except.ok ((dataLayerEnc G S a dek dn pt).drop
        ((dataLayerEnc G S a dek dn pt).length - 16)) ∧
    Algorithm.from_str (envOf G S a pt kek kid dek dn kn).algorithm =
      Except.ok a := by
  have hpkg : kn ++ (G.enc kek kn dek).take ((G.enc kek kn dek).length -
        GCM_TAG_SIZE) ++ (G.enc kek kn dek).drop ((G.enc kek kn dek).length -
        GCM_TAG_SIZE) = kn ++ G.enc kek kn dek := by
    rw [List.append_assoc, List.take_append_drop]
  refine ⟨?_, ?_, ?_, ?_, ?_⟩
  · show b64decodeE (b64encode (kn ++ _ ++ _)) = _
    rw [hpkg]
    exact b64decodeE_encode _ (by
      intro b hb
      rcases List.mem_append.mp hb with h | h
      · exact hknB b h
      · exact hWB b h)
  · exact b64decodeE_encode _ (fun b hb => hGB b (List.take_subset _ _ hb))
  · exact b64decodeE_encode _ hdnB
  · exact b64decodeE_encode _ (fun b hb => hGB b (List.drop_subset _ _ hb))
  · exact from_str_as_str a

/-- Decrypting the envelope produced by `encrypt` with the same KEK
recovers the plaintext (for any configured algorithm `a'` on the
decrypting side, since `decrypt` ignores it). -/
theorem decrypt_envOf (G S : Aead) (a a' : Algorithm) (pt kek : List Nat)
    (kid : String) (dek dn kn : List Nat)
    (hkek : kek.length = 32) (hdek : dek.length = 32)
    (hdn : dn.length = 12) (hdnB : ∀ b ∈ dn, b < 256)
    (hkn : kn.length = 12) (hknB : ∀ b ∈ kn, b < 256)
    (hElen : (dataLayerEnc G S a dek dn pt).length = pt.length + 16)
    (hEB : ∀ b ∈ dataLayerEnc G S a dek dn pt, b < 256)
    (hGrt : G.dec dek dn (G.enc dek dn pt) = some pt)
    (hSrt : S.dec dek dn (S.enc dek dn pt) = some pt)
    (hWlen : (G.enc kek kn dek).length = dek.length + 16)
    (hWB : ∀ b ∈ G.enc kek kn dek, b < 256)
    (hWrt : G.dec kek kn (G.enc kek kn dek) = some dek) :
    decrypt G S a' (envOf G S a pt kek kid dek dn kn) kek = Except.ok pt := by
  obtain ⟨hK, hD, hI, hT, hA⟩ :=
    envOf_fields G S a pt kek kid dek dn kn hdnB hknB hEB hWB
  rw [decrypt_eq_body G S a' _ kek _ _ _ _ a hkek hK hD hI hT hA]
  have hW48 : (G.enc kek kn dek).length = 48 := by rw [hWlen, hdek]
  have hP : (kn ++ G.enc kek kn dek).length = 60 := by
    rw [List.length_append, hkn, hW48]
  rw [if_neg (by omega)]
  have htake12 : (kn ++ G.enc kek kn dek).take 12 = kn :=
    List.take_left' hkn
  have hdrop12 : (kn ++ G.enc kek kn dek).drop 12 = G.enc kek kn dek :=
    List.drop_left' hkn
  have hdrop44 : (kn ++ G.enc kek kn dek).drop ((kn ++ G.enc kek kn dek).length - 16) =
      (G.enc kek kn dek).drop 32 := by
    rw [hP]
    have h44 : (60 : Nat) - 16 = kn.length + 32 := by rw [hkn]
    rw [h44, List.drop_append]
  have hmid : ((kn ++ G.enc kek kn dek).drop 12).take
      ((kn ++ G.enc kek kn dek).length - 16 - 12) = (G.enc kek kn dek).take 32 := by
    rw [hdrop12, hP]
  rw [htake12, hdrop44, hmid]
  rw [aesGcmDecrypt_valid G _ kek kn _ hkek hkn
    (by rw [List.length_drop, hW48])]
  rw [List.take_append_drop, hWrt]
  simp only [hdek, DEK_SIZE]
  rw [if_neg (by omega : ¬(32 : Nat) ≠ 32)]
  have hctE : (dataLayerEnc G S a dek dn pt).take
        ((dataLayerEnc G S a dek dn pt).length - 16) ++
      (dataLayerEnc G S a dek dn pt).drop
        ((dataLayerEnc G S a dek dn pt).length - 16) =
      dataLayerEnc G S a dek dn pt := List.take_append_drop _ _
  have htagLen : ((dataLayerEnc G S a dek dn pt).drop
      ((dataLayerEnc G S a dek dn pt).length - 16)).length = 16 := by
    rw [List.length_drop]
    omega
  cases a with
  | Aes256Gcm =>
      rw [aesGcmDecrypt_valid G _ dek dn _ hdek hdn htagLen, hctE]
      show (match G.dec dek dn (G.enc dek dn pt) with
            | some p => Except.ok p
            | none => Except.error (VioletError.DecryptionFailed "aead::Error")) = _
      rw [hGrt]
  | Aes256GcmSiv =>
      rw [aesGcmSivDecrypt_valid S _ dek dn _ hdek hdn htagLen, hctE]
      show (match S.dec dek dn (S.enc dek dn pt) with
            | some p => Except.ok p
            | none => Except.error (VioletError.DecryptionFailed "aead::Error")) = _
      rw [hSrt]

/-! ## A concrete AEAD instance used to witness the theorems

A trivial concrete cipher: ciphertext is the plaintext, the "tag" is 16
zero bytes, decryption checks the tag suffix.  It satisfies the length,
byte-range and round-trip hypotheses the round-trip theorems assume of the
external primitives. -/

def toyTag : List Nat := List.replicate 16 0

def toyAead : Aead where
  enc := fun _ _ p => p ++ toyTag
  dec := fun _ _ c =>
    if 16 ≤ c.length ∧ c.drop (c.length - 16) = toyTag then
      some (c.take (c.length - 16))
    else none

theorem toyAead_len (k n p : List Nat) :
    (toyAead.enc k n p).length = p.length + 16 := by
  simp [toyAead, toyTag]

theorem toyAead_rt (k n p : List Nat) :
    toyAead.dec k n (toyAead.enc k n p) = some p := by
  have hl : (p ++ toyTag).length - 16 = p.length := by simp [toyTag]
  show (if 16 ≤ (p ++ toyTag).length ∧
          (p ++ toyTag).drop ((p ++ toyTag).length - 16) = toyTag then
        some ((p ++ toyTag).take ((p ++ toyTag).length - 16))
      else none) = some p
  rw [if_pos ⟨by simp [toyTag], by rw [hl, List.drop_left]⟩, hl, List.take_left]

theorem toyAead_bytes (k n p : List Nat) (h : ∀ b ∈ p, b < 256) :
    ∀ b ∈ toyAead.enc k n p, b < 256 := by
  intro b hb
  rcases List.mem_append.mp hb with h1 | h1
  · exact h b h1
  · have := List.eq_of_mem_replicate h1
    omega

/-! ## The claims -/

/-- C1: For every plaintext byte sequence (including the empty sequence),
every 32-byte KEK, every key_id string, and both Algorithm variants,
`EnvelopeEncryptor::decrypt` applied to the envelope returned by
`EnvelopeEncryptor::encrypt(plaintext, kek, key_id)`, with the same KEK,
succeeds and returns a byte sequence bit-identical to the plaintext.  The
random draws (DEK and both nonces) are explicit, with the length and byte
bounds the RNG guarantees; the external AEAD primitives enter through
their length/round-trip contract at the instances used. -/
theorem C1_encrypt_decrypt_roundtrip (G S : Aead) (selfAlg : Algorithm)
    (plaintext kek : List Nat) (key_id : String)
    (dek dataNonce dekNonce : List Nat)
    (hkek : kek.length = 32) (hdek : dek.length = 32)
    (hdn : dataNonce.length = 12) (hdnB : ∀ b ∈ dataNonce, b < 256)
    (hkn : dekNonce.length = 12) (hknB : ∀ b ∈ dekNonce, b < 256)
    (hGlen : (G.enc dek dataNonce plaintext).length = plaintext.length + 16)
    (hSlen : (S.enc dek dataNonce plaintext).length = plaintext.length + 16)
    (hGB : ∀ b ∈ G.enc dek dataNonce plaintext, b < 256)
    (hSB : ∀ b ∈ S.enc dek dataNonce plaintext, b < 256)
    (hGrt : G.dec dek dataNonce (G.enc dek dataNonce plaintext) =
      some plaintext)
    (hSrt : S.dec dek dataNonce (S.enc dek dataNonce plaintext) =
      some plaintext)
    (hWlen : (G.enc kek dekNonce dek).length = dek.length + 16)
    (hWB : ∀ b ∈ G.enc kek dekNonce dek, b < 256)
    (hWrt : G.dec kek dekNonce (G.enc kek dekNonce dek) = some dek) :
    ∀ env, encrypt G S selfAlg plaintext kek key_id dek dataNonce dekNonce =
        Except.ok env →
      decrypt G S selfAlg env kek = Except.ok plaintext := by
  intro env henv
  rw [encrypt_ok G S selfAlg plaintext kek key_id dek dataNonce dekNonce
    hkek hdek] at henv
  injection henv with henv
  subst henv
  refine decrypt_envOf G S selfAlg selfAlg plaintext kek key_id dek dataNonce
    dekNonce hkek hdek hdn hdnB hkn hknB ?_ ?_ hGrt hSrt hWlen hWB hWrt
  · cases selfAlg
    · exact hGlen
    · exact hSlen
  · cases selfAlg
    · exact hGB
    · exact hSB

/-- Witness for C1 at a concrete input: plaintext "Hi", a concrete KEK,
DEK and nonces, with the toy cipher. -/
theorem C1_encrypt_decrypt_roundtrip_witness :
    decrypt toyAead toyAead Algorithm.Aes256Gcm
      (envOf toyAead toyAead Algorithm.Aes256Gcm [72, 105]
        (List.replicate 32 7) "k" (List.replicate 32 1)
        (List.replicate 12 2) (List.replicate 12 3))
      (List.replicate 32 7) = Except.ok [72, 105] :=
  C1_encrypt_decrypt_roundtrip toyAead toyAead Algorithm.Aes256Gcm
    [72, 105] (List.replicate 32 7) "k" (List.replicate 32 1)
    (List.replicate 12 2) (List.replicate 12 3)
    (by decide) (by decide) (by decide) (by decide) (by decide) (by decide)
    (toyAead_len _ _ _) (toyAead_len _ _ _)
    (toyAead_bytes _ _ _ (by decide)) (toyAead_bytes _ _ _ (by decide))
    (toyAead_rt _ _ _) (toyAead_rt _ _ _)
    (toyAead_len _ _ _) (toyAead_bytes _ _ _ (by decide))
    (toyAead_rt _ _ _)
    (envOf toyAead toyAead Algorithm.Aes256Gcm [72, 105]
      (List.replicate 32 7) "k" (List.replicate 32 1)
      (List.replicate 12 2) (List.replicate 12 3))
    (encrypt_ok toyAead toyAead Algorithm.Aes256Gcm [72, 105]
      (List.replicate 32 7) "k" (List.replicate 32 1)
      (List.replicate 12 2) (List.replicate 12 3) (by decide) (by decide))

/-- C4: For every KEK whose length is not 32 bytes, both
`EnvelopeEncryptor::encrypt` and `EnvelopeEncryptor::decrypt` fail with
`InvalidKeySize` carrying the offending length, for both Algorithm
variants and every plaintext / envelope argument (the check is the first
statement of each function, before any cryptographic operation). -/
theorem C4_invalid_kek_size (G S : Aead) (a : Algorithm)
    (plaintext kek : List Nat) (key_id : String) (dek dn kn : List Nat)
    (env : EncryptionEnvelope) (h : kek.length ≠ 32) :
    encrypt G S a plaintext kek key_id dek dn kn =
      Except.error (VioletError.InvalidKeySize kek.length) ∧
    decrypt G S a env kek =
      Except.error (VioletError.InvalidKeySize kek.length) := by
  constructor
  · rw [encrypt.eq_def, if_pos (by rw [DEK_SIZE]; exact h)]
  · rw [decrypt.eq_def, if_pos (by rw [DEK_SIZE]; exact h)]

/-- Witness for C4: a 1-byte KEK. -/
theorem C4_invalid_kek_size_witness :
    encrypt toyAead toyAead Algorithm.Aes256Gcm [] [0] "k" [] [] [] =
      Except.error (VioletError.InvalidKeySize 1) ∧
    decrypt toyAead toyAead Algorithm.Aes256Gcm
      ⟨"", "", "", "", "", ""⟩ [0] =
      Except.error (VioletError.InvalidKeySize 1) :=
  C4_invalid_kek_size toyAead toyAead Algorithm.Aes256Gcm [] [0] "k" [] [] []
    ⟨"", "", "", "", "", ""⟩ (by decide)

/-- C6: The Algorithm string mapping is total and bidirectional:
`from_str (as_str a) = Ok a` for both variants, `as_str` yields exactly
"AES-256-GCM" / "AES-256-GCM-SIV", `from_str` fails with
`InvalidAlgorithm` on every other string, and the default is GCM. -/
theorem C6_algorithm_string_mapping :
    (∀ a : Algorithm, Algorithm.from_str a.as_str = Except.ok a) ∧
    Algorithm.Aes256Gcm.as_str = "AES-256-GCM" ∧
    Algorithm.Aes256GcmSiv.as_str = "AES-256-GCM-SIV" ∧
    (∀ s : String, s ≠ "AES-256-GCM" → s ≠ "AES-256-GCM-SIV" →
      Algorithm.from_str s = Except.error (VioletError.InvalidAlgorithm s)) ∧
    Algorithm.default = Algorithm.Aes256Gcm := by
  refine ⟨from_str_as_str, rfl, rfl, ?_, rfl⟩
  intro s h1 h2
  rw [Algorithm.from_str, if_neg h1, if_neg h2]

/-- Witness for C6: an unrecognized algorithm string fails. -/
theorem C6_algorithm_string_mapping_witness :
    Algorithm.from_str "DES" =
      Except.error (VioletError.InvalidAlgorithm "DES") :=
  C6_algorithm_string_mapping.2.2.2.1 "DES" (by decide) (by decide)

/-- C9: The result of `EnvelopeEncryptor::decrypt` is independent of the
Algorithm the encryptor was constructed with: `self.algorithm` is never
read by `decrypt`, which dispatches only on the algorithm string parsed
from the envelope. -/
theorem C9_decrypt_ignores_configured_algorithm (G S : Aead)
    (a1 a2 : Algorithm) (env : EncryptionEnvelope) (kek : List Nat) :
    decrypt G S a1 env kek = decrypt G S a2 env kek := rfl

/-- C3: For every envelope produced by a successful `encrypt`, regardless
of the configured data-layer Algorithm, the base64 decoding of
`encrypted_key` is exactly `dek_nonce (12 bytes) || wrapped_dek_ciphertext
(32 bytes) || dek_tag (16 bytes)` — 60 bytes, 28 of fixed overhead — and
the wrap was performed by the GCM adapter (`G`) unconditionally. -/
theorem C3_encrypted_key_layout (G S : Aead) (a : Algorithm)
    (pt kek : List Nat) (kid : String) (dek dn kn : List Nat)
    (hkek : kek.length = 32) (hdek : dek.length = 32)
    (hkn : kn.length = 12) (hknB : ∀ b ∈ kn, b < 256)
    (hWlen : (G.enc kek kn dek).length = dek.length + 16)
    (hWB : ∀ b ∈ G.enc kek kn dek, b < 256) :
    ∀ env, encrypt G S a pt kek kid dek dn kn = Except.ok env →
      b64decode env.encrypted_key =
        some (kn ++ (G.enc kek kn dek).take 32 ++ (G.enc kek kn dek).drop 32) ∧
      kn.length = 12 ∧
      ((G.enc kek kn dek).take 32).length = 32 ∧
      ((G.enc kek kn dek).drop 32).length = 16 ∧
      (kn ++ (G.enc kek kn dek).take 32 ++ (G.enc kek kn dek).drop 32).length
        = 60 := by
  intro env henv
  rw [encrypt_ok G S a pt kek kid dek dn kn hkek hdek] at henv
  injection henv with henv
  subst henv
  have hW48 : (G.enc kek kn dek).length = 48 := by rw [hWlen, hdek]
  have h32 : (G.enc kek kn dek).length - GCM_TAG_SIZE = 32 := by
    rw [hW48, GCM_TAG_SIZE]
  refine ⟨?_, hkn, ?_, ?_, ?_⟩
  · show b64decode (b64encode (kn ++ _ ++ _)) = _
    rw [h32]
    exact b64decode_b64encode _ (by
      intro b hb
      rcases List.mem_append.mp hb with h1 | h1
      · rcases List.mem_append.mp h1 with h2 | h2
        · exact hknB b h2
        · exact hWB b (List.take_subset _ _ h2)
      · exact hWB b (List.drop_subset _ _ h1))
  · rw [List.length_take, hW48]
    omega
  · rw [List.length_drop, hW48]
  · simp [hkn, List.length_take, List.length_drop, hW48]

/-- Witness for C3 at a concrete input with the toy cipher. -/
theorem C3_encrypted_key_layout_witness :
    b64decode (envOf toyAead toyAead Algorithm.Aes256GcmSiv [1, 2, 3]
        (List.replicate 32 9) "id" (List.replicate 32 4)
        (List.replicate 12 5) (List.replicate 12 6)).encrypted_key =
      some (List.replicate 12 6 ++
        (toyAead.enc (List.replicate 32 9) (List.replicate 12 6)
          (List.replicate 32 4)).take 32 ++
        (toyAead.enc (List.replicate 32 9) (List.replicate 12 6)
          (List.replicate 32 4)).drop 32) :=
  (C3_encrypted_key_layout toyAead toyAead Algorithm.Aes256GcmSiv [1, 2, 3]
    (List.replicate 32 9) "id" (List.replicate 32 4) (List.replicate 12 5)
    (List.replicate 12 6) (by decide) (by decide) (by decide) (by decide)
    (toyAead_len _ _ _) (toyAead_bytes _ _ _ (by decide))
    (envOf toyAead toyAead Algorithm.Aes256GcmSiv [1, 2, 3]
      (List.replicate 32 9) "id" (List.replicate 32 4)
      (List.replicate 12 5) (List.replicate 12 6))
    (encrypt_ok toyAead toyAead Algorithm.Aes256GcmSiv [1, 2, 3]
      (List.replicate 32 9) "id" (List.replicate 32 4)
      (List.replicate 12 5) (List.replicate 12 6)
      (by decide) (by decide))).1

/-- The continuation of `decrypt` after field decoding, on a wrapped-DEK
buffer of at least 28 bytes, written with the spec's slices:
`nonce = buf[0..12]`, `wrapped_dek = buf[12..len-16]`, `tag = buf[len-16..]`
(then DEK unwrap via the GCM adapter, DEK size check, data-layer dispatch). -/
def decryptTail (G S : Aead) (a : Algorithm) (kek buf ct ivb tg : List Nat) :
    Except VioletError (List Nat) :=
  match aesGcmDecrypt G ((buf.drop 12).take (buf.length - 16 - 12)) kek
      (buf.take 12) (buf.drop (buf.length - 16)) with
  | Except.error e => Except.error e
  | Except.ok dek =>
    if dek.length ≠ 32 then
      Except.error (VioletError.CryptoError "Invalid DEK size")
    else
      match a with
      | Algorithm.Aes256Gcm => aesGcmDecrypt G ct dek ivb tg
      | Algorithm.Aes256GcmSiv => aesGcmSivDecrypt S ct dek ivb tg

/-- C5: For every envelope whose `encrypted_key` decodes to fewer than 28
bytes (other fields decoding fine, recognized algorithm, 32-byte KEK),
`decrypt` returns the structural `CryptoError` (it is a total function —
no panic); for buffers of at least 28 bytes it proceeds as `decryptTail`,
i.e. with exactly the slices `nonce = buf[0..12]`,
`wrapped_dek = buf[12..len-16]`, `tag = buf[len-16..]`. -/
theorem C5_encrypted_key_structure (G S : Aead) (a' : Algorithm)
    (env : EncryptionEnvelope) (kek buf ct ivb tg : List Nat) (a : Algorithm)
    (hkek : kek.length = 32)
    (hK : b64decode env.encrypted_key = some buf)
    (hD : b64decode env.encrypted_data = some ct)
    (hI : b64decode env.iv = some ivb)
    (hT : b64decode env.auth_tag = some tg)
    (hA : Algorithm.from_str env.algorithm = Except.ok a) :
    (buf.length < 28 →
      decrypt G S a' env kek =
        Except.error (VioletError.CryptoError "Invalid encrypted DEK length")) ∧
    (28 ≤ buf.length →
      decrypt G S a' env kek = decryptTail G S a kek buf ct ivb tg) := by
  have hbody := decrypt_eq_body G S a' env kek buf ct ivb tg a hkek
    (by rw [b64decodeE, hK]) (by rw [b64decodeE, hD])
    (by rw [b64decodeE, hI]) (by rw [b64decodeE, hT]) hA
  constructor
  · intro hshort
    rw [hbody, if_pos hshort]
  · intro hlong
    rw [hbody, if_neg (by omega)]
    rfl

/-- Witness for C5: an `encrypted_key` decoding to a single byte yields
the structural error. -/
theorem C5_encrypted_key_structure_witness :
    decrypt toyAead toyAead Algorithm.Aes256Gcm
      ⟨"k", "", "AA==", "", "AES-256-GCM", ""⟩ (List.replicate 32 0) =
      Except.error (VioletError.CryptoError "Invalid encrypted DEK length") :=
  (C5_encrypted_key_structure toyAead toyAead Algorithm.Aes256Gcm
    ⟨"k", "", "AA==", "", "AES-256-GCM", ""⟩ (List.replicate 32 0) [0] [] [] []
    Algorithm.Aes256Gcm (by decide) (by decide) (by decide) (by decide)
    (by decide) rfl).1 (by decide)

theorem decrypt_empty_tag_ne_ok (G S : Aead) (a : Algorithm)
    (env : EncryptionEnvelope) (kek : List Nat) (htag : env.auth_tag = "")
    (pt : List Nat) : decrypt G S a env kek ≠ Except.ok pt := by
  intro h
  rw [decrypt.eq_def, htag,
      show b64decodeE "" = Except.ok ([] : List Nat) by
        rw [b64decodeE, b64decode_empty]] at h
  simp only [aesGcmDecrypt, aesGcmSivDecrypt, GCM_NONCE_SIZE,
    GCM_SIV_NONCE_SIZE, GCM_TAG_SIZE, List.length_nil] at h
  repeat' split at h
  all_goals first
    | exact Except.noConfusion h
    | omega

/-- C10: An envelope whose `auth_tag` is the empty string (as produced by
deserializing JSON lacking `authTag`, which `#[serde(default)]` maps to
`""`) never decrypts: the empty string base64-decodes to zero bytes, and
the data-layer adapters reject a 0-byte tag with `InvalidTagSize 0` before
invoking the cipher, so `decrypt` always fails. -/
theorem C10_empty_auth_tag_never_decrypts (G S : Aead) (a : Algorithm)
    (env : EncryptionEnvelope) (kek : List Nat) (htag : env.auth_tag = "") :
    (decrypt G S a env kek).isOk = false ∧
    (∀ ct dek ivb : List Nat, dek.length = 32 → ivb.length = 12 →
      aesGcmDecrypt G ct dek ivb [] =
        Except.error (VioletError.InvalidTagSize 0) ∧
      aesGcmSivDecrypt S ct dek ivb [] =
        Except.error (VioletError.InvalidTagSize 0)) := by
  constructor
  · cases hk : decrypt G S a env kek with
    | error e => rfl
    | ok p => exact absurd hk (decrypt_empty_tag_ne_ok G S a env kek htag p)
  · intro ct dek ivb hdek hiv
    constructor
    · simp [aesGcmDecrypt, GCM_NONCE_SIZE, GCM_TAG_SIZE, hdek, hiv]
    · simp [aesGcmSivDecrypt, GCM_SIV_NONCE_SIZE, GCM_TAG_SIZE, hdek, hiv]

/-- Witness for C10: a concrete envelope with empty `auth_tag`. -/
theorem C10_empty_auth_tag_never_decrypts_witness :
    (decrypt toyAead toyAead Algorithm.Aes256Gcm
      ⟨"k", "", "", "", "AES-256-GCM", ""⟩ (List.replicate 32 0)).isOk
        = false :=
  (C10_empty_auth_tag_never_decrypts toyAead toyAead Algorithm.Aes256Gcm
    ⟨"k", "", "", "", "AES-256-GCM", ""⟩ (List.replicate 32 0) rfl).1

/-! ## Tampering: single-bit modification of a byte buffer -/

/-- Flip bit `b` of byte `i` of a byte list. -/
def flipBit (l : List Nat) (i b : Nat) : List Nat :=
  l.set i (l.getD i 0 ^^^ 2 ^ b)

theorem flipBit_length (l : List Nat) (i b : Nat) :
    (flipBit l i b).length = l.length := List.length_set l i _

theorem flipBit_ne (l : List Nat) (i b : Nat) (h : i < l.length) :
    flipBit l i b ≠ l := by
  intro he
  have h1 : (flipBit l i b).getD i 0 = l.getD i 0 ^^^ 2 ^ b := by
    unfold flipBit
    rw [List.getD_eq_getElem _ 0 (by rw [List.length_set]; exact h)]
    exact List.getElem_set_self _
  rw [he] at h1
  have h3 : (0 : Nat) = 2 ^ b := by
    calc (0 : Nat) = l.getD i 0 ^^^ l.getD i 0 := (Nat.xor_self _).symm
      _ = l.getD i 0 ^^^ (l.getD i 0 ^^^ 2 ^ b) := by rw [← h1]
      _ = l.getD i 0 ^^^ l.getD i 0 ^^^ 2 ^ b := (Nat.xor_assoc _ _ _).symm
      _ = 0 ^^^ 2 ^ b := by rw [Nat.xor_self]
      _ = 2 ^ b := Nat.zero_xor _
  exact absurd h3.symm (Nat.two_pow_pos b).ne'

theorem flipBit_bytes (l : List Nat) (i b : Nat) (hb : b < 8)
    (h : ∀ x ∈ l, x < 256) : ∀ x ∈ flipBit l i b, x < 256 := by
  intro x hx
  rcases List.mem_or_eq_of_mem_set hx with h1 | h1
  · exact h x h1
  · subst h1
    have hg : l.getD i 0 < 256 := by
      rcases Nat.lt_or_ge i l.length with hi | hi
      · rw [List.getD_eq_getElem l 0 hi]
        exact h _ (List.getElem_mem hi)
      · rw [List.getD_eq_default l 0 hi]
        omega
    have hp : (2 : Nat) ^ b < 2 ^ 8 :=
      Nat.pow_lt_pow_right (by omega) hb
    exact Nat.xor_lt_two_pow (n := 8) hg hp

/-- The raw data-layer primitive selected by the parsed algorithm. -/
def primDec (G S : Aead) (a : Algorithm) (k n c : List Nat) :
    Option (List Nat) :=
  match a with
  | Algorithm.Aes256Gcm => G.dec k n c
  | Algorithm.Aes256GcmSiv => S.dec k n c

/-- `decrypt` reduces to `decryptTail` when all fields parse and the
wrapped-DEK buffer is at least 28 bytes. -/
theorem decrypt_to_tail (G S : Aead) (a' : Algorithm)
    (env : EncryptionEnvelope) (kek P ct ivb tg : List Nat) (a : Algorithm)
    (hkek : kek.length = 32)
    (hK : b64decodeE env.encrypted_key = Except.ok P)
    (hD : b64decodeE env.encrypted_data = Except.ok ct)
    (hI : b64decodeE env.iv = Except.ok ivb)
    (hT : b64decodeE env.auth_tag = Except.ok tg)
    (hA : Algorithm.from_str env.algorithm = Except.ok a)
    (h28 : 28 ≤ P.length) :
    decrypt G S a' env kek = decryptTail G S a kek P ct ivb tg := by
  rw [decrypt_eq_body G S a' env kek P ct ivb tg a hkek hK hD hI hT hA,
      if_neg (by omega)]
  rfl

/-- When the wrapped-DEK buffer is `kn ++ W` with the right shape and `W`
unwraps to a 32-byte DEK, `decryptTail` dispatches to the data layer. -/
theorem decryptTail_valid (G S : Aead) (a : Algorithm)
    (kek kn W ct ivb tg dek : List Nat)
    (hkek : kek.length = 32) (hkn : kn.length = 12) (hW48 : W.length = 48)
    (hWdec : G.dec kek kn W = some dek) (hdek : dek.length = 32) :
    decryptTail G S a kek (kn ++ W) ct ivb tg =
      match a with
      | Algorithm.Aes256Gcm => aesGcmDecrypt G ct dek ivb tg
      | Algorithm.Aes256GcmSiv => aesGcmSivDecrypt S ct dek ivb tg := by
  have hP : (kn ++ W).length = 60 := by
    rw [List.length_append, hkn, hW48]
  rw [decryptTail.eq_def]
  rw [List.take_left' hkn, List.drop_left' hkn, hP]
  rw [(by omega : (60 : Nat) - 16 - 12 = 32)]
  rw [(by rw [hkn] : (60 : Nat) - 16 = kn.length + 32), List.drop_append]
  rw [aesGcmDecrypt_valid G _ kek kn _ hkek hkn
    (by rw [List.length_drop, hW48])]
  rw [List.take_append_drop, hWdec]
  simp only [hdek]
  rw [if_neg (by omega : ¬(32 : Nat) ≠ 32)]

/-- When the DEK unwrap rejects, `decryptTail` fails. -/
theorem decryptTail_reject (G S : Aead) (a : Algorithm)
    (kek P ct ivb tg : List Nat)
    (hkek : kek.length = 32) (hP : P.length = 60)
    (hnone : G.dec kek (P.take 12) (P.drop 12) = none) :
    decryptTail G S a kek P ct ivb tg =
      Except.error (VioletError.DecryptionFailed "aead::Error") := by
  rw [decryptTail.eq_def]
  rw [aesGcmDecrypt_valid G _ kek _ _ hkek
    (by simp [List.length_take, hP])
    (by simp [List.length_drop, hP])]
  have hsplit : (P.drop 12).take (P.length - 16 - 12) ++
      P.drop (P.length - 16) = P.drop 12 := by
    rw [hP]
    have h44 : (60 : Nat) - 16 = 12 + ((60 : Nat) - 16 - 12) := by omega
    nth_rewrite 2 [h44]
    exact List.drop_take_append_drop P 12 _
  rw [hsplit, hnone]

/-- The envelope with one field replaced (used to state tampering). -/
def withData (env : EncryptionEnvelope) (s : String) : EncryptionEnvelope :=
  { env with encrypted_data := s }

def withKey (env : EncryptionEnvelope) (s : String) : EncryptionEnvelope :=
  { env with encrypted_key := s }

def withIv (env : EncryptionEnvelope) (s : String) : EncryptionEnvelope :=
  { env with iv := s }

def withTag (env : EncryptionEnvelope) (s : String) : EncryptionEnvelope :=
  { env with auth_tag := s }

/-- C2: For every envelope produced by a successful `encrypt` and every
single-bit flip of the base64-decoded content of any one of the fields
`encrypted_data`, `encrypted_key`, `iv`, `auth_tag`, `decrypt` on the
modified envelope with the original KEK fails — it never succeeds with any
plaintext.  The external AEAD primitive enters through its authenticity
contract at the two key/nonce instances used: under `(kek, dekNonce)` only
the produced wrap of the DEK is accepted, and under `(dek, dataNonce)`
only the produced data-layer output is accepted. -/
theorem C2_tamper_sensitivity (G S : Aead) (a a' : Algorithm)
    (pt kek : List Nat) (kid : String) (dek dn kn : List Nat)
    (hkek : kek.length = 32) (hdek : dek.length = 32)
    (hdn : dn.length = 12) (hdnB : ∀ b ∈ dn, b < 256)
    (hkn : kn.length = 12) (hknB : ∀ b ∈ kn, b < 256)
    (hElen : (dataLayerEnc G S a dek dn pt).length = pt.length + 16)
    (hEB : ∀ b ∈ dataLayerEnc G S a dek dn pt, b < 256)
    (hWlen : (G.enc kek kn dek).length = dek.length + 16)
    (hWB : ∀ b ∈ G.enc kek kn dek, b < 256)
    (hWrt : G.dec kek kn (G.enc kek kn dek) = some dek)
    (hWa : ∀ n c, n.length = 12 → c.length = 48 →
      ¬(n = kn ∧ c = G.enc kek kn dek) → G.dec kek n c = none)
    (hEa : ∀ n c, n.length = 12 →
      c.length = (dataLayerEnc G S a dek dn pt).length →
      ¬(n = dn ∧ c = dataLayerEnc G S a dek dn pt) →
      primDec G S a dek n c = none) :
    ∀ env, encrypt G S a pt kek kid dek dn kn = Except.ok env →
      (∀ i b, i < ((dataLayerEnc G S a dek dn pt).take
          ((dataLayerEnc G S a dek dn pt).length - 16)).length → b < 8 →
        (decrypt G S a' (withData env
          (b64encode (flipBit ((dataLayerEnc G S a dek dn pt).take
            ((dataLayerEnc G S a dek dn pt).length - 16)) i b)))
          kek).isOk = false) ∧
      (∀ i b, i < (kn ++ G.enc kek kn dek).length → b < 8 →
        (decrypt G S a' (withKey env
          (b64encode (flipBit (kn ++ G.enc kek kn dek) i b)))
          kek).isOk = false) ∧
      (∀ i b, i < dn.length → b < 8 →
        (decrypt G S a' (withIv env (b64encode (flipBit dn i b)))
          kek).isOk = false) ∧
      (∀ i b, i < ((dataLayerEnc G S a dek dn pt).drop
          ((dataLayerEnc G S a dek dn pt).length - 16)).length → b < 8 →
        (decrypt G S a' (withTag env
          (b64encode (flipBit ((dataLayerEnc G S a dek dn pt).drop
            ((dataLayerEnc G S a dek dn pt).length - 16)) i b)))
          kek).isOk = false) := by
  intro env henv
  rw [encrypt_ok G S a pt kek kid dek dn kn hkek hdek] at henv
  injection henv with henv
  subst henv
  obtain ⟨hK, hD, hI, hT, hA⟩ :=
    envOf_fields G S a pt kek kid dek dn kn hdnB hknB hEB hWB
  have hW48 : (G.enc kek kn dek).length = 48 := by rw [hWlen, hdek]
  have hE16 : 16 ≤ (dataLayerEnc G S a dek dn pt).length := by omega
  have hctLen : ((dataLayerEnc G S a dek dn pt).take
      ((dataLayerEnc G S a dek dn pt).length - 16)).length =
      (dataLayerEnc G S a dek dn pt).length - 16 := by
    rw [List.length_take]
    omega
  have htgLen : ((dataLayerEnc G S a dek dn pt).drop
      ((dataLayerEnc G S a dek dn pt).length - 16)).length = 16 := by
    rw [List.length_drop]
    omega
  have hctB : ∀ x ∈ (dataLayerEnc G S a dek dn pt).take
      ((dataLayerEnc G S a dek dn pt).length - 16), x < 256 :=
    fun x hx => hEB x (List.take_subset _ _ hx)
  have htgB : ∀ x ∈ (dataLayerEnc G S a dek dn pt).drop
      ((dataLayerEnc G S a dek dn pt).length - 16), x < 256 :=
    fun x hx => hEB x (List.drop_subset _ _ hx)
  have hPB : ∀ x ∈ kn ++ G.enc kek kn dek, x < 256 := by
    intro x hx
    rcases List.mem_append.mp hx with h1 | h1
    · exact hknB x h1
    · exact hWB x h1
  have hP60 : (kn ++ G.enc kek kn dek).length = 60 := by
    rw [List.length_append, hkn, hW48]
  have hcttg : (dataLayerEnc G S a dek dn pt).take
        ((dataLayerEnc G S a dek dn pt).length - 16) ++
      (dataLayerEnc G S a dek dn pt).drop
        ((dataLayerEnc G S a dek dn pt).length - 16) =
      dataLayerEnc G S a dek dn pt := List.take_append_drop _ _
  refine ⟨?_, ?_, ?_, ?_⟩
  · -- flipped encrypted_data
    intro i b hi hb
    rw [decrypt_to_tail G S a'
      (withData (envOf G S a pt kek kid dek dn kn)
        (b64encode (flipBit ((dataLayerEnc G S a dek dn pt).take
          ((dataLayerEnc G S a dek dn pt).length - 16)) i b)))
      kek (kn ++ G.enc kek kn dek)
      (flipBit ((dataLayerEnc G S a dek dn pt).take
        ((dataLayerEnc G S a dek dn pt).length - 16)) i b)
      dn
      ((dataLayerEnc G S a dek dn pt).drop
        ((dataLayerEnc G S a dek dn pt).length - 16))
      a hkek hK (b64decodeE_encode _ (flipBit_bytes _ i b hb hctB)) hI hT hA
      (by omega)]
    rw [decryptTail_valid G S a kek kn _ _ _ _ dek hkek hkn hW48 hWrt hdek]
    have hne : ¬(dn = dn ∧ flipBit ((dataLayerEnc G S a dek dn pt).take
        ((dataLayerEnc G S a dek dn pt).length - 16)) i b ++
        (dataLayerEnc G S a dek dn pt).drop
          ((dataLayerEnc G S a dek dn pt).length - 16) =
        dataLayerEnc G S a dek dn pt) := by
      rintro ⟨-, hc⟩
      exact flipBit_ne _ i b hi
        (List.append_cancel_right (hc.trans hcttg.symm))
    have hlen : (flipBit ((dataLayerEnc G S a dek dn pt).take
        ((dataLayerEnc G S a dek dn pt).length - 16)) i b ++
        (dataLayerEnc G S a dek dn pt).drop
          ((dataLayerEnc G S a dek dn pt).length - 16)).length =
        (dataLayerEnc G S a dek dn pt).length := by
      rw [List.length_append, flipBit_length, hctLen, htgLen]
      omega
    have hnone := hEa dn _ hdn hlen hne
    cases a with
    | Aes256Gcm =>
        rw [aesGcmDecrypt_valid G _ dek dn _ hdek hdn htgLen]
        rw [show G.dec dek dn _ = none from hnone]
        rfl
    | Aes256GcmSiv =>
        rw [aesGcmSivDecrypt_valid S _ dek dn _ hdek hdn htgLen]
        rw [show S.dec dek dn _ = none from hnone]
        rfl
  · -- flipped encrypted_key
    intro i b hi hb
    rw [decrypt_to_tail G S a'
      (withKey (envOf G S a pt kek kid dek dn kn)
        (b64encode (flipBit (kn ++ G.enc kek kn dek) i b)))
      kek (flipBit (kn ++ G.enc kek kn dek) i b)
      ((dataLayerEnc G S a dek dn pt).take
        ((dataLayerEnc G S a dek dn pt).length - 16))
      dn
      ((dataLayerEnc G S a dek dn pt).drop
        ((dataLayerEnc G S a dek dn pt).length - 16))
      a hkek
      (b64decodeE_encode _ (flipBit_bytes _ i b hb hPB)) hD hI hT hA
      (by rw [flipBit_length]; omega)]
    have hnone : G.dec kek ((flipBit (kn ++ G.enc kek kn dek) i b).take 12)
        ((flipBit (kn ++ G.enc kek kn dek) i b).drop 12) = none := by
      refine hWa _ _ ?_ ?_ ?_
      · rw [List.length_take, flipBit_length, hP60]
        omega
      · rw [List.length_drop, flipBit_length, hP60]
      · rintro ⟨hn, hc⟩
        have hrec : flipBit (kn ++ G.enc kek kn dek) i b =
            kn ++ G.enc kek kn dek := by
          rw [← List.take_append_drop 12 (flipBit (kn ++ G.enc kek kn dek) i b),
              hn, hc]
        exact flipBit_ne _ i b hi hrec
    rw [decryptTail_reject G S a kek _ _ dn _ hkek
      (by rw [flipBit_length, hP60]) hnone]
    rfl
  · -- flipped iv
    intro i b hi hb
    rw [decrypt_to_tail G S a'
      (withIv (envOf G S a pt kek kid dek dn kn)
        (b64encode (flipBit dn i b)))
      kek (kn ++ G.enc kek kn dek)
      ((dataLayerEnc G S a dek dn pt).take
        ((dataLayerEnc G S a dek dn pt).length - 16))
      (flipBit dn i b)
      ((dataLayerEnc G S a dek dn pt).drop
        ((dataLayerEnc G S a dek dn pt).length - 16))
      a hkek hK hD
      (b64decodeE_encode _ (flipBit_bytes _ i b hb hdnB)) hT hA (by omega)]
    rw [decryptTail_valid G S a kek kn _ _ _ _ dek hkek hkn hW48 hWrt hdek]
    have hne : ¬(flipBit dn i b = dn ∧ (dataLayerEnc G S a dek dn pt).take
        ((dataLayerEnc G S a dek dn pt).length - 16) ++
        (dataLayerEnc G S a dek dn pt).drop
          ((dataLayerEnc G S a dek dn pt).length - 16) =
        dataLayerEnc G S a dek dn pt) := by
      rintro ⟨hn, -⟩
      exact flipBit_ne _ i b hi hn
    have hlen : ((dataLayerEnc G S a dek dn pt).take
        ((dataLayerEnc G S a dek dn pt).length - 16) ++
        (dataLayerEnc G S a dek dn pt).drop
          ((dataLayerEnc G S a dek dn pt).length - 16)).length =
        (dataLayerEnc G S a dek dn pt).length := by
      rw [hcttg]
    have hnone := hEa (flipBit dn i b) _
      (by rw [flipBit_length, hdn]) hlen hne
    cases a with
    | Aes256Gcm =>
        rw [aesGcmDecrypt_valid G _ dek _ _ hdek
          (by rw [flipBit_length, hdn]) htgLen]
        rw [show G.dec dek (flipBit dn i b) _ = none from hnone]
        rfl
    | Aes256GcmSiv =>
        rw [aesGcmSivDecrypt_valid S _ dek _ _ hdek
          (by rw [flipBit_length, hdn]) htgLen]
        rw [show S.dec dek (flipBit dn i b) _ = none from hnone]
        rfl
  · -- flipped auth_tag
    intro i b hi hb
    rw [decrypt_to_tail G S a'
      (withTag (envOf G S a pt kek kid dek dn kn)
        (b64encode (flipBit ((dataLayerEnc G S a dek dn pt).drop
          ((dataLayerEnc G S a dek dn pt).length - 16)) i b)))
      kek (kn ++ G.enc kek kn dek)
      ((dataLayerEnc G S a dek dn pt).take
        ((dataLayerEnc G S a dek dn pt).length - 16))
      dn
      (flipBit ((dataLayerEnc G S a dek dn pt).drop
        ((dataLayerEnc G S a dek dn pt).length - 16)) i b)
      a hkek hK hD hI
      (b64decodeE_encode _ (flipBit_bytes _ i b hb htgB)) hA (by omega)]
    rw [decryptTail_valid G S a kek kn _ _ _ _ dek hkek hkn hW48 hWrt hdek]
    have hne : ¬(dn = dn ∧ (dataLayerEnc G S a dek dn pt).take
        ((dataLayerEnc G S a dek dn pt).length - 16) ++
        flipBit ((dataLayerEnc G S a dek dn pt).drop
          ((dataLayerEnc G S a dek dn pt).length - 16)) i b =
        dataLayerEnc G S a dek dn pt) := by
      rintro ⟨-, hc⟩
      exact flipBit_ne _ i b hi
        (List.append_cancel_left (hc.trans hcttg.symm))
    have hlen : ((dataLayerEnc G S a dek dn pt).take
        ((dataLayerEnc G S a dek dn pt).length - 16) ++
        flipBit ((dataLayerEnc G S a dek dn pt).drop
          ((dataLayerEnc G S a dek dn pt).length - 16)) i b).length =
        (dataLayerEnc G S a dek dn pt).length := by
      rw [List.length_append, flipBit_length, hctLen, htgLen]
      omega
    have hnone := hEa dn _ hdn hlen hne
    have htgLen' : (flipBit ((dataLayerEnc G S a dek dn pt).drop
        ((dataLayerEnc G S a dek dn pt).length - 16)) i b).length = 16 := by
      rw [flipBit_length, htgLen]
    cases a with
    | Aes256Gcm =>
        rw [aesGcmDecrypt_valid G _ dek dn _ hdek hdn htgLen']
        rw [show G.dec dek dn _ = none from hnone]
        rfl
    | Aes256GcmSiv =>
        rw [aesGcmSivDecrypt_valid S _ dek dn _ hdek hdn htgLen']
        rw [show S.dec dek dn _ = none from hnone]
        rfl

/-! ## A concrete strictly-authenticating AEAD instance for the C2 witness:
a known-answer table around fixed key/nonce/plaintext values, rejecting
everything else. -/

def kekC : List Nat := List.replicate 32 10
def dekC : List Nat := List.replicate 32 11
def dnC : List Nat := List.replicate 12 12
def knC : List Nat := List.replicate 12 13
def ptC : List Nat := [1, 2]
def tagW : List Nat := List.replicate 16 20
def tagE : List Nat := List.replicate 16 21

def toyAead2 : Aead where
  enc := fun k n p =>
    if k = kekC ∧ n = knC ∧ p = dekC then dekC ++ tagW
    else if k = dekC ∧ n = dnC ∧ p = ptC then ptC ++ tagE
    else p ++ toyTag
  dec := fun k n c =>
    if k = kekC ∧ n = knC ∧ c = dekC ++ tagW then some dekC
    else if k = dekC ∧ n = dnC ∧ c = ptC ++ tagE then some ptC
    else none

theorem toyAead2_wa : ∀ n c : List Nat, n.length = 12 → c.length = 48 →
    ¬(n = knC ∧ c = toyAead2.enc kekC knC dekC) →
    toyAead2.dec kekC n c = none := by
  intro n c _ _ hne
  have henc : toyAead2.enc kekC knC dekC = dekC ++ tagW := by decide
  show (if kekC = kekC ∧ n = knC ∧ c = dekC ++ tagW then some dekC
        else if kekC = dekC ∧ n = dnC ∧ c = ptC ++ tagE then some ptC
        else none) = none
  rw [if_neg, if_neg]
  · rintro ⟨h1, -⟩
    exact (by decide : kekC ≠ dekC) h1
  · rintro ⟨-, hn', hc'⟩
    exact hne ⟨hn', hc'.trans henc.symm⟩

theorem toyAead2_ea : ∀ n c : List Nat, n.length = 12 →
    c.length = (dataLayerEnc toyAead2 toyAead2 Algorithm.Aes256Gcm dekC dnC
      ptC).length →
    ¬(n = dnC ∧ c = dataLayerEnc toyAead2 toyAead2 Algorithm.Aes256Gcm dekC
      dnC ptC) →
    primDec toyAead2 toyAead2 Algorithm.Aes256Gcm dekC n c = none := by
  intro n c _ _ hne
  have hdata : dataLayerEnc toyAead2 toyAead2 Algorithm.Aes256Gcm dekC dnC
      ptC = ptC ++ tagE := by decide
  show (if dekC = kekC ∧ n = knC ∧ c = dekC ++ tagW then some dekC
        else if dekC = dekC ∧ n = dnC ∧ c = ptC ++ tagE then some ptC
        else none) = none
  rw [if_neg, if_neg]
  · rintro ⟨-, hn', hc'⟩
    exact hne ⟨hn', hc'.trans hdata.symm⟩
  · rintro ⟨h1, -⟩
    exact (by decide : dekC ≠ kekC) h1

/-- Witness for C2: flipping bit 0 of byte 0 of the decoded
`encrypted_data` of a concretely produced envelope makes `decrypt` fail. -/
theorem C2_tamper_sensitivity_witness :
    (decrypt toyAead2 toyAead2 Algorithm.Aes256Gcm
      (withData (envOf toyAead2 toyAead2 Algorithm.Aes256Gcm ptC kekC "k"
          dekC dnC knC)
        (b64encode (flipBit ((dataLayerEnc toyAead2 toyAead2
            Algorithm.Aes256Gcm dekC dnC ptC).take
          ((dataLayerEnc toyAead2 toyAead2 Algorithm.Aes256Gcm dekC dnC
            ptC).length - 16)) 0 0)))
      kekC).isOk = false :=
  (C2_tamper_sensitivity toyAead2 toyAead2 Algorithm.Aes256Gcm
    Algorithm.Aes256Gcm ptC kekC "k" dekC dnC knC
    (by decide) (by decide) (by decide) (by decide) (by decide) (by decide)
    (by decide) (by decide) (by decide) (by decide) (by decide)
    toyAead2_wa toyAead2_ea
    (envOf toyAead2 toyAead2 Algorithm.Aes256Gcm ptC kekC "k" dekC dnC knC)
    (encrypt_ok toyAead2 toyAead2 Algorithm.Aes256Gcm ptC kekC "k" dekC dnC
      knC (by decide) (by decide))).1 0 0 (by decide) (by decide)

/-! ## Daemon protocol and handler (`violet-daemon/src/protocol.rs`,
`handler.rs`, `server.rs`)

The `KeysClient` HTTP collaborator is external; it is modelled by its
interface: `KeysClient::new` as an `Except` value, `get_key`/`create_key`
returning a key record whose `as_bytes` outcome is stored alongside.
Error message strings keep the Rust `format!` prefix, with the chained
display of the inner error abstracted. -/

inductive Operation
  | Encrypt
  | Decrypt
  deriving DecidableEq, Repr

structure RequestData where
  plaintext : String
  key_id : Option String
  algorithm : Option Algorithm
  envelope : Option EncryptionEnvelope
  deriving Repr

structure Request where
  operation : Operation
  data : RequestData
  deriving Repr

inductive ResponseResult
  | Encrypt (envelope : EncryptionEnvelope)
  | Decrypt (plaintext : String)
  deriving DecidableEq, Repr

structure Response where
  success : Bool
  result : Option ResponseResult
  error : Option String
  deriving DecidableEq, Repr

/-- `Response::success_encrypt`. -/
def Response.success_encrypt (envelope : EncryptionEnvelope) : Response :=
  { success := true, result := some (ResponseResult.Encrypt envelope),
    error := none }

/-- `Response::success_decrypt`. -/
def Response.success_decrypt (plaintext : String) : Response :=
  { success := true, result := some (ResponseResult.Decrypt plaintext),
    error := none }

/-- `Response::error` (named `err` here because `error` is the field). -/
def Response.err (message : String) : Response :=
  { success := false, result := none, error := some message }

/-- The key record the external Keys server returns, with the outcome of
`Key::as_bytes` (hex decode and length validation) stored alongside. -/
structure KeyRecord where
  uuid : String
  bytes : Except String (List Nat)

/-- The `KeysClient` interface consumed by the handler. -/
structure KeysClientModel where
  get_key : String → Except String KeyRecord
  create_key : Except String KeyRecord

/-- `RequestHandler::handle_encrypt`.  `client` is the outcome of
`KeysClient::new`; `dek`, `dn`, `kn` are the random draws of the inner
`encrypt`. -/
def handle_encrypt (G S : Aead) (client : Except String KeysClientModel)
    (dek dn kn : List Nat) (request : Request) : Response :=
  match b64decode request.data.plaintext with
  | none => Response.err "Invalid base64"
  | some plaintext =>
    let algorithm := request.data.algorithm.getD Algorithm.default
    match client with
    | Except.error _ => Response.err "Client error"
    | Except.ok c =>
      match request.data.key_id with
      | some kid =>
        match c.get_key kid with
        | Except.ok key =>
          match key.bytes with
          | Except.ok kek_bytes =>
            match encrypt G S algorithm plaintext kek_bytes key.uuid
                dek dn kn with
            | Except.ok envelope => Response.success_encrypt envelope
            | Except.error _ => Response.err "Encryption failed"
          | Except.error _ => Response.err "Key decode error"
        | Except.error _ => Response.err "Failed to get key"
      | none =>
        match c.create_key with
        | Except.ok key =>
          match key.bytes with
          | Except.ok kek_bytes =>
            match encrypt G S algorithm plaintext kek_bytes key.uuid
                dek dn kn with
            | Except.ok envelope => Response.success_encrypt envelope
            | Except.error _ => Response.err "Encryption failed"
          | Except.error _ => Response.err "Key decode error"
        | Except.error _ => Response.err "Failed to create key"

/-- `RequestHandler::handle_decrypt`. -/
def handle_decrypt (G S : Aead) (client : Except String KeysClientModel)
    (request : Request) : Response :=
  match request.data.envelope with
  | none => Response.err "Missing envelope in decrypt request"
  | some envelope =>
    match client with
    | Except.error _ => Response.err "Client error"
    | Except.ok c =>
      match c.get_key envelope.key_id with
      | Except.error _ => Response.err "Failed to get key"
      | Except.ok key =>
        match key.bytes with
        | Except.error _ => Response.err "Key decode error"
        | Except.ok kek_bytes =>
          match Algorithm.from_str envelope.algorithm with
          | Except.error _ => Response.err "Invalid algorithm"
          | Except.ok algorithm =>
            match decrypt G S algorithm envelope kek_bytes with
            | Except.ok plaintext =>
                Response.success_decrypt (b64encode plaintext)
            | Except.error _ => Response.err "Decryption failed"

/-- `RequestHandler::handle`. -/
def handle (G S : Aead) (client : Except String KeysClientModel)
    (dek dn kn : List Nat) (request : Request) : Response :=
  match request.operation with
  | Operation.Encrypt => handle_encrypt G S client dek dn kn request
  | Operation.Decrypt => handle_decrypt G S client request

/-- The per-request environment of one loop iteration of
`handle_connection`: the `KeysClient::new` outcome and the RNG draws. -/
structure HandlerDeps where
  client : Except String KeysClientModel
  dek : List Nat
  dataNonce : List Nat
  dekNonce : List Nat

/-- One iteration of the connection loop: a line that failed JSON parsing
(`none`) is answered with an error response without reaching the handler;
a parsed request is dispatched. -/
def processLine (G S : Aead) (d : HandlerDeps) (line : Option Request) :
    Response :=
  match line with
  | none => Response.err "Invalid request"
  | some request =>
      handle G S d.client d.dek d.dataNonce d.dekNonce request

/-- `handle_connection`: reads lines until end of stream, answering every
line with exactly one response and never terminating the loop on a
request-level failure.  `deps i` is the environment of the `i`-th
iteration. -/
def handle_connection (G S : Aead) (deps : Nat → HandlerDeps) (i : Nat) :
    List (Option Request) → List Response
  | [] => []
  | line :: rest =>
      processLine G S (deps i) line ::
        handle_connection G S deps (i + 1) rest

theorem handle_connection_length (G S : Aead) (deps : Nat → HandlerDeps) :
    ∀ (i : Nat) (lines : List (Option Request)),
      (handle_connection G S deps i lines).length = lines.length := by
  intro i lines
  induction lines generalizing i with
  | nil => rfl
  | cons line rest ih =>
      rw [handle_connection, List.length_cons, List.length_cons, ih]

theorem handle_connection_append (G S : Aead) (deps : Nat → HandlerDeps) :
    ∀ (i : Nat) (xs ys : List (Option Request)),
      handle_connection G S deps i (xs ++ ys) =
        handle_connection G S deps i xs ++
          handle_connection G S deps (i + xs.length) ys := by
  intro i xs ys
  induction xs generalizing i with
  | nil => rw [handle_connection]; rfl
  | cons x rest ih =>
      rw [List.cons_append, handle_connection, handle_connection, ih,
          List.cons_append, List.length_cons]
      congr 3
      omega

theorem handle_shape (G S : Aead) (client : Except String KeysClientModel)
    (dek dn kn : List Nat) (req : Request) :
    ((handle G S client dek dn kn req).success = true ∧
      (handle G S client dek dn kn req).result.isSome = true ∧
      (handle G S client dek dn kn req).error = none) ∨
    ((handle G S client dek dn kn req).success = false ∧
      (handle G S client dek dn kn req).result = none ∧
      (handle G S client dek dn kn req).error.isSome = true) := by
  rw [handle.eq_def]
  repeat' split
  all_goals
    simp [handle_encrypt, handle_decrypt, Response.success_encrypt,
      Response.success_decrypt, Response.err]
  all_goals repeat' split
  all_goals
    simp [Response.success_encrypt, Response.success_decrypt, Response.err]

/-- C8: A decrypt request carrying no envelope is answered with a
`success = false` response holding an error message and no result; the
connection loop answers every line with exactly one response and continues
past failures (so a subsequent valid request on the same connection is
still processed, by the append decomposition); and every handler response
carries exactly one of `result`/`error`, gated by `success`. -/
theorem C8_missing_envelope_and_connection (G S : Aead)
    (deps : Nat → HandlerDeps) :
    (∀ (client : Except String KeysClientModel) (dek dn kn : List Nat)
        (req : Request), req.operation = Operation.Decrypt →
      req.data.envelope = none →
      handle G S client dek dn kn req =
        Response.err "Missing envelope in decrypt request") ∧
    (∀ lines : List (Option Request),
      (handle_connection G S deps 0 lines).length = lines.length) ∧
    (∀ (i : Nat) (xs ys : List (Option Request)),
      handle_connection G S deps i (xs ++ ys) =
        handle_connection G S deps i xs ++
          handle_connection G S deps (i + xs.length) ys) ∧
    (∀ (client : Except String KeysClientModel) (dek dn kn : List Nat)
        (req : Request),
      ((handle G S client dek dn kn req).success = true ∧
        (handle G S client dek dn kn req).result.isSome = true ∧
        (handle G S client dek dn kn req).error = none) ∨
      ((handle G S client dek dn kn req).success = false ∧
        (handle G S client dek dn kn req).result = none ∧
        (handle G S client dek dn kn req).error.isSome = true)) := by
  refine ⟨?_, fun lines => handle_connection_length G S deps 0 lines,
    handle_connection_append G S deps,
    fun client dek dn kn req => handle_shape G S client dek dn kn req⟩
  intro client dek dn kn req hop henv
  simp only [handle, hop, handle_decrypt, henv]

/-- Witness for C8: a concrete envelope-less decrypt request is answered
with the error response. -/
theorem C8_missing_envelope_and_connection_witness :
    handle toyAead toyAead (Except.error "unreachable") [] [] []
      ⟨Operation.Decrypt, ⟨"", none, none, none⟩⟩ =
      Response.err "Missing envelope in decrypt request" :=
  (C8_missing_envelope_and_connection toyAead toyAead
    (fun _ => ⟨Except.error "unreachable", [], [], []⟩)).1
    (Except.error "unreachable") [] [] []
    ⟨Operation.Decrypt, ⟨"", none, none, none⟩⟩ rfl rfl

/-! ## C7: concrete daemon inputs -/

def clientOkC : Except String KeysClientModel :=
  Except.ok
    { get_key := fun _ => Except.error "not found"
      create_key :=
        Except.ok { uuid := "uuid-1", bytes := Except.ok (List.replicate 32 7) } }

def reqNoPlaintext : Request :=
  ⟨Operation.Encrypt, ⟨"", none, none, none⟩⟩

/-- Counterexample to C7: a daemon encrypt request carrying no plaintext
(serde defaults the field to `""`) is NOT rejected — with a key service
that mints a key, the handler returns a success response (it encrypts the
empty byte sequence). -/
theorem C7_counterexample :
    (handle toyAead toyAead clientOkC (List.replicate 32 1)
      (List.replicate 12 2) (List.replicate 12 3)
      reqNoPlaintext).success = true := by decide

/-- C7 (amended): for encrypt requests, `plaintext` is not required: a
request whose data carries no plaintext gets the serde default `""`, whose
base64 decoding is the empty byte sequence, and is processed as an
encryption of empty plaintext (here for the mint-new-key path). -/
theorem C7_missing_plaintext_encrypts_empty (G S : Aead)
    (client : Except String KeysClientModel) (dek dn kn : List Nat)
    (req : Request) (hop : req.operation = Operation.Encrypt)
    (hpt : req.data.plaintext = "") (hkid : req.data.key_id = none)
    (c : KeysClientModel) (hc : client = Except.ok c)
    (key : KeyRecord) (hck : c.create_key = Except.ok key)
    (kb : List Nat) (hkb : key.bytes = Except.ok kb) :
    ∀ env, encrypt G S (req.data.algorithm.getD Algorithm.default) [] kb
        key.uuid dek dn kn = Except.ok env →
      handle G S client dek dn kn req = Response.success_encrypt env := by
  intro env henc
  simp only [handle, hop, handle_encrypt, hpt, b64decode_empty, hkid, hc,
    hck, hkb, henc]

/-- Witness for the amended C7 at a concrete input. -/
theorem C7_missing_plaintext_encrypts_empty_witness :
    handle toyAead toyAead clientOkC (List.replicate 32 1)
      (List.replicate 12 2) (List.replicate 12 3) reqNoPlaintext =
      Response.success_encrypt (envOf toyAead toyAead Algorithm.Aes256Gcm
        [] (List.replicate 32 7) "uuid-1" (List.replicate 32 1)
        (List.replicate 12 2) (List.replicate 12 3)) :=
  C7_missing_plaintext_encrypts_empty toyAead toyAead clientOkC
    (List.replicate 32 1) (List.replicate 12 2) (List.replicate 12 3)
    reqNoPlaintext rfl rfl rfl
    { get_key := fun _ => Except.error "not found"
      create_key :=
        Except.ok { uuid := "uuid-1", bytes := Except.ok (List.replicate 32 7) } }
    rfl { uuid := "uuid-1", bytes := Except.ok (List.replicate 32 7) } rfl
    (List.replicate 32 7) rfl
    (envOf toyAead toyAead Algorithm.Aes256Gcm [] (List.replicate 32 7)
      "uuid-1" (List.replicate 32 1) (List.replicate 12 2)
      (List.replicate 12 3))
    (encrypt_ok toyAead toyAead Algorithm.Aes256Gcm [] (List.replicate 32 7)
      "uuid-1" (List.replicate 32 1) (List.replicate 12 2)
      (List.replicate 12 3) (by decide) (by decide))

end Violet
